import Mathlib

/-
Verification of
`src/vs/workbench/services/userDataSync/browser/userDataSyncWorkbenchService.ts`.

The TypeScript code is shallowly embedded: each relevant method becomes a
pure Lean function; interactive collaborators (dialog service, manual sync
task, authentication service, telemetry, token sink) are modelled as inputs
or as entries of an effect trace returned by the function.
-/

namespace UserDataSync

/-- Errors thrown by the service.  The source throws either `canceled()`
(a cancellation condition) or a generic `new Error(message)`. -/
inductive WorkbenchError
  | cancelled
  | error (message : String)
deriving DecidableEq, Repr

/-- The `FirstTimeSyncAction` union type of the source:
`'pull' | 'push' | 'merge' | 'manual'`. -/
inductive FirstTimeSyncAction
  | pull
  | push
  | merge
  | manual
deriving DecidableEq, Repr

/-- Result of one run of `getFirstTimeSyncAction`: whether the dialog was
shown, the telemetry `action` strings published (in order), and the returned
action or the thrown error. -/
structure FirstTimeSyncOutcome where
  prompted : Bool
  telemetry : List String
  result : Except WorkbenchError FirstTimeSyncAction
deriving Repr

/-- Embedding of `UserDataSyncWorkbenchService.getFirstTimeSyncAction`
(lines 297-334).  `choice` is the index returned by the dialog service when
the dialog is shown (the dialog's `cancelId` is 3, so dismissal also arrives
as 3); it is ignored on the no-prompt path. -/
def getFirstTimeSyncAction (hasRemoteData hasLocalData hasChanges isLastSyncFromCurrentMachine : Bool)
    (choice : Nat) : FirstTimeSyncOutcome :=
  if !hasLocalData || !hasRemoteData || !hasChanges || isLastSyncFromCurrentMachine then
    { prompted := false, telemetry := [], result := Except.ok FirstTimeSyncAction.merge }
  else
    match choice with
    | 0 => { prompted := true, telemetry := ["manual"], result := Except.ok FirstTimeSyncAction.manual }
    | 1 => { prompted := true, telemetry := ["merge"], result := Except.ok FirstTimeSyncAction.merge }
    | 2 => { prompted := true, telemetry := ["pull"], result := Except.ok FirstTimeSyncAction.pull }
    | _ => { prompted := true, telemetry := ["cancelled"], result := Except.error WorkbenchError.cancelled }

/-- Claim C1: for every combination of the four boolean inputs,
`getFirstTimeSyncAction` prompts exactly when `hasRemoteData`, `hasLocalData`
and `hasChanges` are all true and `isLastSyncFromCurrentMachine` is false;
whenever `hasLocalData` is false, or `hasRemoteData` is false, or
`hasChanges` is false, or `isLastSyncFromCurrentMachine` is true, it returns
`merge` without showing any prompt. -/
theorem getFirstTimeSyncAction_merge_cases (hr hl hc ls : Bool) (c : Nat) :
    (getFirstTimeSyncAction hr hl hc ls c).prompted = (hr && hl && hc && !ls) ∧
    ((hl = false ∨ hr = false ∨ hc = false ∨ ls = true) →
      (getFirstTimeSyncAction hr hl hc ls c).prompted = false ∧
      (getFirstTimeSyncAction hr hl hc ls c).result = Except.ok FirstTimeSyncAction.merge) := by
  cases hr <;> cases hl <;> cases hc <;> cases ls <;>
    first
      | exact ⟨rfl, fun _ => ⟨rfl, rfl⟩⟩
      | refine ⟨?_, fun h => ?_⟩
        · rcases c with _ | _ | _ | c <;> rfl
        · rcases h with h | h | h | h <;> cases h

/-- Witness for claim C1 at a concrete input: with no local data the decision
is `merge` and no prompt is shown. -/
theorem getFirstTimeSyncAction_merge_cases_witness :
    (getFirstTimeSyncAction true false true false 0).prompted = false ∧
    (getFirstTimeSyncAction true false true false 0).result = Except.ok FirstTimeSyncAction.merge :=
  (getFirstTimeSyncAction_merge_cases true false true false 0).2 (Or.inl rfl)

/-- Claim C2: when `getFirstTimeSyncAction` prompts (all data present,
changes detected, last sync from another machine), dialog choice 0 yields
`manual`, 1 yields `merge`, 2 yields `pull`, and the cancel choice (index 3,
the dialog's `cancelId`, or any later index) raises the cancelled error;
each outcome, including the cancelled one, publishes exactly its action name
to the telemetry collaborator. -/
theorem getFirstTimeSyncAction_prompt_mapping (c : Nat) (hc : 3 ≤ c) :
    getFirstTimeSyncAction true true true false 0 =
      { prompted := true, telemetry := ["manual"], result := Except.ok FirstTimeSyncAction.manual } ∧
    getFirstTimeSyncAction true true true false 1 =
      { prompted := true, telemetry := ["merge"], result := Except.ok FirstTimeSyncAction.merge } ∧
    getFirstTimeSyncAction true true true false 2 =
      { prompted := true, telemetry := ["pull"], result := Except.ok FirstTimeSyncAction.pull } ∧
    getFirstTimeSyncAction true true true false c =
      { prompted := true, telemetry := ["cancelled"], result := Except.error WorkbenchError.cancelled } := by
  refine ⟨rfl, rfl, rfl, ?_⟩
  rcases c with _ | _ | _ | c
  · exact absurd hc (by decide)
  · exact absurd hc (by decide)
  · exact absurd hc (by decide)
  · rfl

/-- Witness for claim C2 at the concrete cancel choice 3. -/
theorem getFirstTimeSyncAction_prompt_mapping_witness :
    getFirstTimeSyncAction true true true false 3 =
      { prompted := true, telemetry := ["cancelled"], result := Except.error WorkbenchError.cancelled } :=
  (getFirstTimeSyncAction_prompt_mapping 3 (by decide)).2.2.2

/-- The `SyncResource` enumeration of the platform layer (settings,
keybindings, snippets, extensions, global state). -/
inductive SyncResource
  | settings
  | keybindings
  | snippets
  | extensions
  | globalState
deriving DecidableEq, Repr

/-- The `Change` enumeration: `None`, `Added`, `Modified`, `Deleted`. -/
inductive Change
  | None
  | Added
  | Modified
  | Deleted
deriving DecidableEq, Repr

/-- URIs are modelled as strings; `isEqual` from `vs/base/common/resources`
is modelled as equality on them. -/
def URIStr : Type := String
deriving instance DecidableEq, Repr for URIStr

/-- An `IResourcePreview` as used by this file: the three resource URIs,
the local and remote change kinds, and the `merged` flag. -/
structure IResourcePreview where
  localResource : URIStr
  remoteResource : URIStr
  previewResource : URIStr
  localChange : Change
  remoteChange : Change
  merged : Bool
deriving DecidableEq, Repr

/-- An `ISyncResourcePreview` as used by this file: its resource previews
and the `isLastSyncFromCurrentMachine` flag. -/
structure ISyncResourcePreview where
  isLastSyncFromCurrentMachine : Bool
  resourcePreviews : List IResourcePreview
deriving DecidableEq, Repr

/-- An `IUserDataSyncResourceGroup`: `{ syncResource, local, remote,
preview, localChange, remoteChange }`.  The `local` field is renamed
`localUri` because `local` is a Lean keyword. -/
structure IUserDataSyncResourceGroup where
  syncResource : SyncResource
  localUri : URIStr
  remote : URIStr
  preview : URIStr
  localChange : Change
  remoteChange : Change
deriving DecidableEq, Repr

/-- `equals` from `vs/base/common/arrays` (external to src): the two lists
have the same length and the comparator holds pointwise. -/
def arrayEquals (cmp : α → α → Bool) : List α → List α → Bool
  | [], [] => true
  | a :: as, b :: bs => cmp a b && arrayEquals cmp as bs
  | _, _ => false

/-- The comparator used for both derived lists: equality of local URIs. -/
def sameLocal (a b : IUserDataSyncResourceGroup) : Bool :=
  a.localUri == b.localUri

/-- Embedding of `UserDataSyncPreview.toUserDataSyncResourceGroups`
(lines 657-663): flatten each `(syncResource, previews)` pair into one
group per resource preview. -/
def toUserDataSyncResourceGroups
    (syncResourcePreviews : List (SyncResource × List IResourcePreview)) :
    List IUserDataSyncResourceGroup :=
  (syncResourcePreviews.map (fun p =>
    p.2.map (fun r =>
      { syncResource := p.1
        localUri := r.localResource
        remote := r.remoteResource
        preview := r.previewResource
        localChange := r.localChange
        remoteChange := r.remoteChange }))).flatten

/-- State of `UserDataSyncPreview`: the optional manual-sync session's
preview (the task handle is modelled through the operations' inputs), and
the stored derived `_conflicts` and `_changes` lists. -/
structure PreviewState where
  manualSync : Option (List (SyncResource × ISyncResourcePreview))
  conflicts : List IUserDataSyncResourceGroup
  changes : List IUserDataSyncResourceGroup
deriving DecidableEq, Repr

/-- The list computed as `newChanges` inside `UserDataSyncPreview.updateChanges`
(lines 637-650): drop the global-state pairs, then keep only resource
previews that are not merged, have some local or remote change, and have no
conflict entry with the same sync resource and local URI. -/
def deriveChanges (preview : List (SyncResource × ISyncResourcePreview))
    (conflicts : List IUserDataSyncResourceGroup) :
    List IUserDataSyncResourceGroup :=
  toUserDataSyncResourceGroups
    ((preview.filter (fun p => !(p.1 == SyncResource.globalState))).map
      (fun p =>
        (p.1,
          p.2.resourcePreviews.filter (fun r =>
            !r.merged
            && (!(r.localChange == Change.None) || !(r.remoteChange == Change.None))
            && !(conflicts.any (fun c =>
                  c.syncResource == p.1 && c.localUri == r.localResource))))))

/-- Embedding of `UserDataSyncPreview.updateChanges` (lines 637-655);
the boolean reports whether the changes change-event fired. -/
def updateChanges (s : PreviewState) : PreviewState × Bool :=
  let newChanges := deriveChanges (s.manualSync.getD []) s.conflicts
  if arrayEquals sameLocal newChanges s.changes then (s, false)
  else ({ s with changes := newChanges }, true)

/-- Embedding of `UserDataSyncPreview.updateConflicts` (lines 628-635);
the two booleans report whether the conflicts event and then the changes
event fired. -/
def updateConflicts (conflicts : List (SyncResource × List IResourcePreview))
    (s : PreviewState) : PreviewState × Bool × Bool :=
  let newConflicts := toUserDataSyncResourceGroups conflicts
  let step :=
    if arrayEquals sameLocal newConflicts s.conflicts then (s, false)
    else ({ s with conflicts := newConflicts }, true)
  let next := updateChanges step.1
  (next.1, step.2, next.2)

/-- Embedding of `UserDataSyncPreview.setManualSyncPreview` (lines 563-566). -/
def setManualSyncPreview (preview : List (SyncResource × ISyncResourcePreview))
    (s : PreviewState) : PreviewState × Bool :=
  updateChanges { s with manualSync := some preview }

/-- Embedding of `UserDataSyncPreview.updatePreview` (lines 621-626). -/
def updatePreview (preview : List (SyncResource × ISyncResourcePreview))
    (s : PreviewState) : PreviewState × Bool :=
  match s.manualSync with
  | some _ => updateChanges { s with manualSync := some preview }
  | none => (s, false)

/-- Calls made by `accept` to its collaborators: the manual task's `accept`
or the sync engine's automatic `acceptPreviewContent`. -/
inductive AcceptEffect
  | taskAccept (resource content : String)
  | engineAccept (syncResource : SyncResource) (resource content : String)
deriving DecidableEq, Repr

/-- Result of `accept`: the new state, the collaborator call made, whether
`updateChanges` ran, and whether the changes event fired. -/
structure AcceptResult where
  state : PreviewState
  effects : List AcceptEffect
  changesRecomputed : Bool
  changesFired : Bool
deriving Repr

/-- Embedding of `UserDataSyncPreview.accept` (lines 568-575).  `taskResult`
is the updated preview returned by the manual task's `accept` call (only
consulted on the manual path). -/
def accept (syncResource : SyncResource) (resource content : String)
    (taskResult : List (SyncResource × ISyncResourcePreview))
    (s : PreviewState) : AcceptResult :=
  match s.manualSync with
  | some _ =>
    let next := updatePreview taskResult s
    { state := next.1
      effects := [AcceptEffect.taskAccept resource content]
      changesRecomputed := true
      changesFired := next.2 }
  | none =>
    { state := s
      effects := [AcceptEffect.engineAccept syncResource resource content]
      changesRecomputed := false
      changesFired := false }

/-- Embedding of `UserDataSyncPreview.merge` (lines 577-583).  `taskResult`
is the preview returned by the manual task's `merge`. -/
def merge (resource : Option URIStr)
    (taskResult : List (SyncResource × ISyncResourcePreview))
    (s : PreviewState) : Except WorkbenchError (PreviewState × Bool) :=
  match s.manualSync with
  | none => Except.error (WorkbenchError.error "Can merge only while syncing manually")
  | some _ => Except.ok (updatePreview taskResult s)

/-- Embedding of `UserDataSyncPreview.pull` (lines 585-591). -/
def pull (s : PreviewState) : Except WorkbenchError (PreviewState × Bool) :=
  match s.manualSync with
  | none => Except.error (WorkbenchError.error "Can pull only while syncing manually")
  | some _ => Except.ok (updatePreview [] s)

/-- Embedding of `UserDataSyncPreview.push` (lines 593-599). -/
def push (s : PreviewState) : Except WorkbenchError (PreviewState × Bool) :=
  match s.manualSync with
  | none => Except.error (WorkbenchError.error "Can push only while syncing manually")
  | some _ => Except.ok (updatePreview [] s)

/-- The letter of the `IDecorationData` returned by `provideDecorations`. -/
inductive DecorationLetter
  | M
  | A
deriving DecidableEq, Repr

/-- Embedding of `UserDataSyncPreview.provideDecorations` (lines 601-619). -/
def provideDecorations (s : PreviewState) (resource : URIStr) : Option DecorationLetter :=
  let changeResource :=
    (s.changes.find? (fun c => c.remote == resource)).orElse
      (fun _ => s.conflicts.find? (fun c => c.remote == resource))
  match changeResource with
  | some c =>
    if c.localChange == Change.Modified || c.remoteChange == Change.Modified then
      some DecorationLetter.M
    else if c.localChange == Change.Added || c.localChange == Change.Deleted
        || c.remoteChange == Change.Added || c.remoteChange == Change.Deleted then
      some DecorationLetter.A
    else
      Option.none
  | none => Option.none

/-- One externally triggered operation on the preview state machine, with
the collaborator responses it consumes. -/
inductive PreviewOp
  | setManual (preview : List (SyncResource × ISyncResourcePreview))
  | acceptOp (syncResource : SyncResource) (resource content : String)
      (taskResult : List (SyncResource × ISyncResourcePreview))
  | mergeOp (resource : Option URIStr)
      (taskResult : List (SyncResource × ISyncResourcePreview))
  | pullOp
  | pushOp
  | conflictsOp (feed : List (SyncResource × List IResourcePreview))
deriving Repr

/-- State transition of one operation (a thrown error leaves the state
unchanged). -/
def stepOp (op : PreviewOp) (s : PreviewState) : PreviewState :=
  match op with
  | PreviewOp.setManual preview => (setManualSyncPreview preview s).1
  | PreviewOp.acceptOp sr r c tr => (accept sr r c tr s).state
  | PreviewOp.mergeOp r tr =>
    match merge r tr s with
    | Except.ok next => next.1
    | Except.error _ => s
  | PreviewOp.pullOp =>
    match pull s with
    | Except.ok next => next.1
    | Except.error _ => s
  | PreviewOp.pushOp =>
    match push s with
    | Except.ok next => next.1
    | Except.error _ => s
  | PreviewOp.conflictsOp feed => (updateConflicts feed s).1

/-- The state built by the `UserDataSyncPreview` constructor (lines 555-561):
empty lists, no manual session, then `updateConflicts` on the engine's
current conflicts. -/
def initialState (engineConflicts : List (SyncResource × List IResourcePreview)) :
    PreviewState :=
  (updateConflicts engineConflicts { manualSync := none, conflicts := [], changes := [] }).1

/-- Run a sequence of operations from a state. -/
def runOps (ops : List PreviewOp) (s : PreviewState) : PreviewState :=
  ops.foldl (fun s op => stepOp op s) s

theorem updateChanges_manualSync (s : PreviewState) :
    (updateChanges s).1.manualSync = s.manualSync := by
  simp only [updateChanges]
  split <;> rfl

theorem updateChanges_conflicts (s : PreviewState) :
    (updateChanges s).1.conflicts = s.conflicts := by
  simp only [updateChanges]
  split <;> rfl

/-- Claim C4: `merge`, `pull` and `push` on a state with no active manual
session all fail with the invalid-state error (`'Can ... only while syncing
manually'`); none of them returns successfully, so none silently no-ops. -/
theorem mergePullPush_invalidState (s : PreviewState) (resource : Option URIStr)
    (taskResult : List (SyncResource × ISyncResourcePreview))
    (h : s.manualSync = none) :
    merge resource taskResult s =
      Except.error (WorkbenchError.error "Can merge only while syncing manually") ∧
    pull s = Except.error (WorkbenchError.error "Can pull only while syncing manually") ∧
    push s = Except.error (WorkbenchError.error "Can push only while syncing manually") := by
  refine ⟨?_, ?_, ?_⟩ <;> simp [merge, pull, push, h]

/-- Witness for claim C4 at the concrete empty state. -/
theorem mergePullPush_invalidState_witness :
    merge Option.none [] { manualSync := none, conflicts := [], changes := [] } =
      Except.error (WorkbenchError.error "Can merge only while syncing manually") ∧
    pull { manualSync := none, conflicts := [], changes := [] } =
      Except.error (WorkbenchError.error "Can pull only while syncing manually") ∧
    push { manualSync := none, conflicts := [], changes := [] } =
      Except.error (WorkbenchError.error "Can push only while syncing manually") :=
  mergePullPush_invalidState { manualSync := none, conflicts := [], changes := [] }
    Option.none [] rfl

/-- Counterexample to claim C5 as stated: on the automatic path (no manual
session active) `accept` delegates to the engine but does not recompute the
derived changes list — `updateChanges` is never invoked, so the claim's
"in both cases the derived changes list is recomputed" is false. -/
theorem accept_no_recompute_counterexample :
    (accept SyncResource.settings "res" "content" []
        { manualSync := none, conflicts := [], changes := [] }).changesRecomputed = false ∧
    (accept SyncResource.settings "res" "content" []
        { manualSync := none, conflicts := [], changes := [] }).effects =
      [AcceptEffect.engineAccept SyncResource.settings "res" "content"] :=
  ⟨rfl, rfl⟩

/-- Claim C5 (amended): with a manual session active, `accept` delegates to
the session's task, replaces the stored preview with the task's returned
updated preview and recomputes the derived changes list; with no session it
delegates directly to the sync engine's automatic-mode accept and leaves the
stored preview and changes untouched (no recomputation). -/
theorem accept_behavior (sr : SyncResource) (resource content : String)
    (taskResult : List (SyncResource × ISyncResourcePreview)) (s : PreviewState) :
    (s.manualSync.isSome = true →
      accept sr resource content taskResult s =
        { state := (updateChanges { s with manualSync := some taskResult }).1
          effects := [AcceptEffect.taskAccept resource content]
          changesRecomputed := true
          changesFired := (updateChanges { s with manualSync := some taskResult }).2 } ∧
      (accept sr resource content taskResult s).state.manualSync = some taskResult) ∧
    (s.manualSync = none →
      accept sr resource content taskResult s =
        { state := s
          effects := [AcceptEffect.engineAccept sr resource content]
          changesRecomputed := false
          changesFired := false }) := by
  cases hms : s.manualSync with
  | none =>
    refine ⟨fun h => ?_, fun _ => ?_⟩
    · simp at h
    · simp [accept, hms]
  | some p =>
    refine ⟨fun _ => ⟨?_, ?_⟩, fun h => ?_⟩
    · simp [accept, hms, updatePreview]
    · simp [accept, hms, updatePreview, updateChanges_manualSync]
    · simp at h

/-- Witness for claim C5's amended theorem at a concrete manual-session
state. -/
theorem accept_behavior_witness :
    (accept SyncResource.settings "res" "content" []
        { manualSync := some [], conflicts := [], changes := [] }).state.manualSync =
      some ([] : List (SyncResource × ISyncResourcePreview)) :=
  ((accept_behavior SyncResource.settings "res" "content" []
      { manualSync := some [], conflicts := [], changes := [] }).1 rfl).2

theorem arrayEquals_refl (cmp : α → α → Bool) (h : ∀ a, cmp a a = true) :
    ∀ l : List α, arrayEquals cmp l l = true := by
  intro l
  induction l with
  | nil => rfl
  | cons a as ih => simp [arrayEquals, h, ih]

theorem sameLocal_refl (a : IUserDataSyncResourceGroup) : sameLocal a a = true := by
  simp [sameLocal]

theorem updateChanges_idem (s : PreviewState) :
    updateChanges (updateChanges s).1 = ((updateChanges s).1, false) := by
  by_cases h : arrayEquals sameLocal (deriveChanges (s.manualSync.getD []) s.conflicts) s.changes = true
  · have e1 : updateChanges s = (s, false) := by
      simp only [updateChanges]
      rw [if_pos h]
    rw [e1]
    simp only [updateChanges]
    rw [if_pos h]
  · have e1 : updateChanges s =
        ({ s with changes := deriveChanges (s.manualSync.getD []) s.conflicts }, true) := by
      simp only [updateChanges]
      rw [if_neg h]
    rw [e1]
    simp only [updateChanges]
    rw [if_pos (arrayEquals_refl sameLocal sameLocal_refl _)]

/-- Membership in the flattened resource groups. -/
theorem mem_toGroups {l : List (SyncResource × List IResourcePreview)}
    {g : IUserDataSyncResourceGroup} :
    g ∈ toUserDataSyncResourceGroups l ↔
      ∃ p ∈ l, ∃ r ∈ p.2,
        g = { syncResource := p.1, localUri := r.localResource,
              remote := r.remoteResource, preview := r.previewResource,
              localChange := r.localChange, remoteChange := r.remoteChange } := by
  simp only [toUserDataSyncResourceGroups, List.mem_flatten, List.mem_map]
  constructor
  · rintro ⟨sub, ⟨p, hp, rfl⟩, hg⟩
    obtain ⟨r, hr, rfl⟩ := List.mem_map.mp hg
    exact ⟨p, hp, r, hr, rfl⟩
  · rintro ⟨p, hp, r, hr, rfl⟩
    exact ⟨_, ⟨p, hp, rfl⟩, List.mem_map.mpr ⟨r, hr, rfl⟩⟩

/-- A state reached by a conflict-feed update followed by a preview
installation, built to exhibit the same local URI in `changes` (under sync
resource `settings`) and in `conflicts` (under sync resource
`keybindings`). -/
def overlapSeed : IResourcePreview :=
  { localResource := "file:local-settings"
    remoteResource := "file:remote-settings"
    previewResource := "file:preview-settings"
    localChange := Change.Modified
    remoteChange := Change.None
    merged := false }

/-- The concrete reachable state for the claim C3 counterexample. -/
def overlapState : PreviewState :=
  runOps
    [PreviewOp.conflictsOp [(SyncResource.keybindings, [overlapSeed])],
     PreviewOp.setManual
       [(SyncResource.settings,
         { isLastSyncFromCurrentMachine := false, resourcePreviews := [overlapSeed] })]]
    (initialState [])

/-- Counterexample to claim C3 as stated: in a state reachable by one
conflict-feed update and one preview installation, `changes` contains an
entry whose local URI also occurs in `conflicts` — the code only excludes a
preview entry when a conflict matches both its local URI and its sync
resource, so a conflict of a different sync resource with the same local
URI stays in `changes`. -/
theorem changes_conflicts_overlap_counterexample :
    overlapState.changes.any (fun g =>
      overlapState.conflicts.any (fun c => c.localUri == g.localUri)) = true := by
  decide

/-- Claim C3 (amended): every entry of the freshly derived changes list
(the `newChanges` computed on each recomputation) is of a sync resource
other than the excluded side-effect-only `globalState`, has a local or
remote change, shares no (sync resource, local URI) pair with the conflicts
list, and comes from a non-merged resource preview of the current manual
preview.  (The claim as stated fails: a conflict under a different sync
resource may share a local URI with a changes entry, and the stored list
may also keep stale entries when a recomputation yields the same local URIs
pointwise.) -/
theorem deriveChanges_invariant (preview : List (SyncResource × ISyncResourcePreview))
    (conflicts : List IUserDataSyncResourceGroup) (g : IUserDataSyncResourceGroup)
    (hg : g ∈ deriveChanges preview conflicts) :
    g.syncResource ≠ SyncResource.globalState ∧
    (g.localChange ≠ Change.None ∨ g.remoteChange ≠ Change.None) ∧
    (∀ c ∈ conflicts, ¬(c.syncResource = g.syncResource ∧ c.localUri = g.localUri)) ∧
    ∃ p ∈ preview, ∃ r ∈ p.2.resourcePreviews,
      r.merged = false ∧ g.syncResource = p.1 ∧ g.localUri = r.localResource ∧
      g.localChange = r.localChange ∧ g.remoteChange = r.remoteChange := by
  rw [deriveChanges, mem_toGroups] at hg
  obtain ⟨q, hq, r, hr, rfl⟩ := hg
  obtain ⟨p, hp, rfl⟩ := List.mem_map.mp hq
  obtain ⟨hpmem, hpglob⟩ := List.mem_filter.mp hp
  obtain ⟨hrmem, hpred⟩ := List.mem_filter.mp hr
  rw [Bool.and_eq_true, Bool.and_eq_true] at hpred
  obtain ⟨⟨hm, hch⟩, hcf⟩ := hpred
  have hmerged : r.merged = false := by simpa using hm
  have hglob : p.1 ≠ SyncResource.globalState := by simpa using hpglob
  have hconf : (conflicts.any fun c =>
      c.syncResource == p.1 && c.localUri == r.localResource) = false := by
    simpa using hcf
  refine ⟨hglob, ?_, ?_, p, hpmem, r, hrmem, hmerged, rfl, rfl, rfl, rfl⟩
  · rw [Bool.or_eq_true] at hch
    rcases hch with h | h
    · exact Or.inl (by simpa using h)
    · exact Or.inr (by simpa using h)
  · intro c hc hcontra
    have h1 : c.syncResource = p.1 := hcontra.1
    have h2 : c.localUri = r.localResource := hcontra.2
    have hno := List.any_eq_false.mp hconf c hc
    apply hno
    simp [h1, h2]

/-- Witness for claim C3's amended theorem: a concrete derived entry is not
of the excluded global-state resource kind. -/
theorem deriveChanges_invariant_witness :
    ({ syncResource := SyncResource.settings, localUri := "file:local-settings",
       remote := "file:remote-settings", preview := "file:preview-settings",
       localChange := Change.Modified, remoteChange := Change.None } :
      IUserDataSyncResourceGroup).syncResource ≠ SyncResource.globalState :=
  (deriveChanges_invariant
    [(SyncResource.settings,
      { isLastSyncFromCurrentMachine := false, resourcePreviews := [overlapSeed] })]
    []
    { syncResource := SyncResource.settings, localUri := "file:local-settings",
      remote := "file:remote-settings", preview := "file:preview-settings",
      localChange := Change.Modified, remoteChange := Change.None }
    (by decide)).1

/-- Claim C8: recomputing the derived conflicts and changes a second time
from unchanged inputs changes nothing and fires no second event; moreover
each event fires exactly when the newly derived list differs from the
stored one under pointwise equality of local URIs. -/
theorem updateConflicts_recompute_idempotent (s : PreviewState)
    (feed : List (SyncResource × List IResourcePreview)) :
    updateConflicts feed (updateConflicts feed s).1 = ((updateConflicts feed s).1, false, false) ∧
    (updateConflicts feed s).2.1 =
      !arrayEquals sameLocal (toUserDataSyncResourceGroups feed) s.conflicts ∧
    (updateChanges s).2 =
      !arrayEquals sameLocal (deriveChanges (s.manualSync.getD []) s.conflicts) s.changes := by
  refine ⟨?_, ?_, ?_⟩
  · by_cases h : arrayEquals sameLocal (toUserDataSyncResourceGroups feed) s.conflicts = true
    · have e1 : updateConflicts feed s = ((updateChanges s).1, false, (updateChanges s).2) := by
        simp only [updateConflicts]
        rw [if_pos h]
      rw [e1]
      simp only [updateConflicts]
      rw [if_pos (by rw [updateChanges_conflicts]; exact h)]
      simp [updateChanges_idem]
    · have e1 : updateConflicts feed s =
          ((updateChanges { s with conflicts := toUserDataSyncResourceGroups feed }).1, true,
            (updateChanges { s with conflicts := toUserDataSyncResourceGroups feed }).2) := by
        simp only [updateConflicts]
        rw [if_neg h]
      rw [e1]
      simp only [updateConflicts]
      rw [if_pos (by
        rw [updateChanges_conflicts]
        exact arrayEquals_refl sameLocal sameLocal_refl _)]
      simp [updateChanges_idem]
  · simp only [updateConflicts]
    by_cases h : arrayEquals sameLocal (toUserDataSyncResourceGroups feed) s.conflicts = true
    · rw [if_pos h, h]
      rfl
    · rw [if_neg h]
      have hf : arrayEquals sameLocal (toUserDataSyncResourceGroups feed) s.conflicts = false :=
        Bool.eq_false_iff.mpr h
      rw [hf]
      rfl
  · simp only [updateChanges]
    by_cases h : arrayEquals sameLocal (deriveChanges (s.manualSync.getD []) s.conflicts) s.changes = true
    · rw [if_pos h, h]
      rfl
    · rw [if_neg h]
      have hf : arrayEquals sameLocal (deriveChanges (s.manualSync.getD []) s.conflicts) s.changes = false :=
        Bool.eq_false_iff.mpr h
      rw [hf]
      rfl

/-- Claim C9: the decoration lookup searches `changes` then `conflicts` for
an entry whose remote URI matches; a matching entry with `Modified` on
either side yields the "modified" letter `M`; otherwise `Added` or `Deleted`
on either side yields the "added/removed" letter `A`; a matching entry with
neither (both sides `None`) yields no letter, and so does a URI matching no
entry.  The return type `Option DecorationLetter` makes at most one marker
per lookup. -/
theorem provideDecorations_spec (s : PreviewState) (uri : URIStr) :
    (∀ c, ((s.changes.find? (fun g => g.remote == uri)).orElse
            (fun _ => s.conflicts.find? (fun g => g.remote == uri))) = some c →
      ((c.localChange = Change.Modified ∨ c.remoteChange = Change.Modified) →
        provideDecorations s uri = some DecorationLetter.M) ∧
      (c.localChange ≠ Change.Modified → c.remoteChange ≠ Change.Modified →
        (c.localChange = Change.Added ∨ c.localChange = Change.Deleted ∨
         c.remoteChange = Change.Added ∨ c.remoteChange = Change.Deleted) →
        provideDecorations s uri = some DecorationLetter.A) ∧
      (c.localChange = Change.None → c.remoteChange = Change.None →
        provideDecorations s uri = Option.none)) ∧
    (s.changes.find? (fun g => g.remote == uri) = Option.none →
      s.conflicts.find? (fun g => g.remote == uri) = Option.none →
      provideDecorations s uri = Option.none) := by
  constructor
  · intro c hc
    refine ⟨fun h => ?_, fun h1 h2 h3 => ?_, fun h1 h2 => ?_⟩
    · simp only [provideDecorations]
      rw [hc]
      rcases h with h | h <;> simp [h]
    · simp only [provideDecorations]
      rw [hc]
      cases hl : c.localChange <;> cases hr : c.remoteChange <;>
        simp_all
    · simp only [provideDecorations]
      rw [hc]
      simp [h1, h2]
  · intro h1 h2
    simp only [provideDecorations]
    rw [h1]
    simp only [Option.orElse]
    rw [h2]

/-- Concrete preview state for the claim C9 witness: one changes entry with
remote URI `"r1"`, modified locally. -/
def decoState : PreviewState :=
  { manualSync := none
    conflicts := []
    changes := [{ syncResource := SyncResource.settings, localUri := "l1", remote := "r1",
                  preview := "p1", localChange := Change.Modified, remoteChange := Change.None }] }

/-- Witness for claim C9: the modified entry yields the `M` marker. -/
theorem provideDecorations_spec_witness :
    provideDecorations decoState "r1" = some DecorationLetter.M :=
  ((provideDecorations_spec decoState "r1").1
      { syncResource := SyncResource.settings, localUri := "l1", remote := "r1",
        preview := "p1", localChange := Change.Modified, remoteChange := Change.None }
      (by decide)).1 (Or.inl rfl)

/-- `AccountStatus` of the workbench layer. -/
inductive AccountStatus
  | Uninitialized
  | Available
  | Unavailable
deriving DecidableEq, Repr

/-- An `AuthenticationSession` as used here: id, account label, account id
and the access token.

Modelled from the spec: the `AuthenticationSession` type lives outside this
repository's sources, and the spec describes the account token as lazily
fetched with a possible non-fatal fetch failure (`TokenUnavailable`), so the
token is an `Except` value rather than a plain string. -/
structure AuthenticationSession where
  id : String
  accountLabel : String
  accountId : String
  accessToken : Except String String

/-- `UserDataSyncAccount` (lines 52-60): a provider id and a session. -/
structure UserDataSyncAccount where
  authenticationProviderId : String
  session : AuthenticationSession

def UserDataSyncAccount.sessionId (a : UserDataSyncAccount) : String := a.session.id

def UserDataSyncAccount.accountName (a : UserDataSyncAccount) : String := a.session.accountLabel

def UserDataSyncAccount.token (a : UserDataSyncAccount) : Except String String :=
  a.session.accessToken

/-- `isCurrentAccount` (lines 364-366): the account's session id equals the
persisted current session id (`undefined` matches no account). -/
def isCurrentAccount (currentSessionId : Option String) (a : UserDataSyncAccount) : Bool :=
  currentSessionId == some a.sessionId

/-- JavaScript `Map.set` semantics on an insertion-ordered association
list: an existing key keeps its position and gets the new value, a new key
is appended. -/
def mapSet (k : String) (v : α) : List (String × α) → List (String × α)
  | [] => [(k, v)]
  | (k', v') :: rest => if k = k' then (k, v) :: rest else (k', v') :: mapSet k v rest

/-- Embedding of `getAccounts` (lines 177-196): build one account per
session keyed by account name (later sessions with the same name replace
the value), remember the last session matching the persisted current
session id, and finally re-insert that current account so that it wins its
name's slot. -/
def getAccounts (authenticationProviderId : String)
    (sessions : List AuthenticationSession) (currentSessionId : Option String) :
    List UserDataSyncAccount :=
  let step := sessions.foldl
    (fun (acc : List (String × UserDataSyncAccount) × Option UserDataSyncAccount) session =>
      let account : UserDataSyncAccount := ⟨authenticationProviderId, session⟩
      (mapSet account.accountName account acc.1,
        if isCurrentAccount currentSessionId account then some account else acc.2))
    ([], none)
  let withCurrent :=
    match step.2 with
    | some currentAccount => mapSet currentAccount.accountName currentAccount step.1
    | none => step.1
  withCurrent.map Prod.snd

/-- The argument passed to the token sink's `updateAccount`. -/
structure TokenPair where
  token : String
  authenticationProviderId : String
deriving DecidableEq, Repr

/-- Observable outcome of `updateToken`: the errors logged and the calls
made to the token sink (`userDataSyncAccountService.updateAccount`), in
order. -/
structure UpdateTokenResult where
  loggedErrors : List String
  sinkCalls : List (Option TokenPair)
deriving DecidableEq, Repr

/-- Embedding of `updateToken` (lines 198-211): with a current account, try
to read its token and build the sink value; a token failure is logged and
leaves the value empty.  The sink's `updateAccount` is then called exactly
once, with the value (possibly empty) — the call itself is unconditional. -/
def updateToken (current : Option UserDataSyncAccount) : UpdateTokenResult :=
  match current with
  | none => { loggedErrors := [], sinkCalls := [Option.none] }
  | some a =>
    match a.token with
    | Except.ok t =>
      { loggedErrors := []
        sinkCalls := [some { token := t, authenticationProviderId := a.authenticationProviderId }] }
    | Except.error e => { loggedErrors := [e], sinkCalls := [Option.none] }

/-- State of the account registry: the per-provider account map and the
published account status. -/
structure WorkbenchState where
  all : List (String × List UserDataSyncAccount)
  accountStatus : AccountStatus

/-- The `all` getter (line 77): flatten the map's values. -/
def WorkbenchState.allAccounts (s : WorkbenchState) : List UserDataSyncAccount :=
  (s.all.map Prod.snd).flatten

/-- The `current` getter (line 79): first account whose session id equals
the persisted current session id. -/
def currentOf (s : WorkbenchState) (currentSessionId : Option String) :
    Option UserDataSyncAccount :=
  (s.allAccounts.filter (isCurrentAccount currentSessionId)).head?

/-- Embedding of `updateAccountStatus` (lines 213-225): derive the status
from whether `current` is defined; on an actual flip, store it, log the
`(previous, next)` pair and fire the change event; otherwise do nothing. -/
def updateAccountStatus (current : Option UserDataSyncAccount) (s : WorkbenchState) :
    WorkbenchState × List (AccountStatus × AccountStatus) × List AccountStatus :=
  let accountStatus := if current.isSome then AccountStatus.Available else AccountStatus.Unavailable
  if s.accountStatus ≠ accountStatus then
    ({ s with accountStatus := accountStatus }, [(s.accountStatus, accountStatus)], [accountStatus])
  else
    (s, [], [])

/-- Embedding of `update` (lines 164-175): rebuild the whole account map
from the providers' live sessions, then push the token for the (new)
current account and republish the account status.  Returns the new state,
the token side effects and the fired status events. -/
def update (providers : List String) (sessionsOf : String → List AuthenticationSession)
    (currentSessionId : Option String) (s : WorkbenchState) :
    WorkbenchState × UpdateTokenResult × List AccountStatus :=
  let allAccounts := providers.map (fun pid => (pid, getAccounts pid (sessionsOf pid) currentSessionId))
  let s1 : WorkbenchState := { s with all := allAccounts }
  let current := currentOf s1 currentSessionId
  let tok := updateToken current
  let step := updateAccountStatus current s1
  (step.1, tok, step.2.2)

theorem updateAccountStatus_all (c : Option UserDataSyncAccount) (s : WorkbenchState) :
    (updateAccountStatus c s).1.all = s.all := by
  simp only [updateAccountStatus]
  split <;> split <;> rfl

theorem updateAccountStatus_status (c : Option UserDataSyncAccount) (s : WorkbenchState) :
    (updateAccountStatus c s).1.accountStatus =
      (if c.isSome then AccountStatus.Available else AccountStatus.Unavailable) := by
  simp only [updateAccountStatus]
  split <;> split
  · rfl
  · next h => exact not_ne_iff.mp h
  · rfl
  · next h => exact not_ne_iff.mp h

theorem updateAccountStatus_events (c : Option UserDataSyncAccount) (s : WorkbenchState) :
    (updateAccountStatus c s).2.2 ≠ [] ↔
      (updateAccountStatus c s).1.accountStatus ≠ s.accountStatus := by
  simp only [updateAccountStatus]
  split <;> split
  · next h => exact ⟨fun _ he => h he.symm, fun _ => List.cons_ne_nil _ _⟩
  · next h => exact ⟨fun he => absurd rfl he, fun he => absurd rfl he⟩
  · next h => exact ⟨fun _ he => h he.symm, fun _ => List.cons_ne_nil _ _⟩
  · next h => exact ⟨fun he => absurd rfl he, fun he => absurd rfl he⟩

theorem head?_filter_eq_some {p : α → Bool} {l : List α} {a : α}
    (h : (l.filter p).head? = some a) : p a = true := by
  cases hf : l.filter p with
  | nil => rw [hf] at h; cases h
  | cons x xs =>
    rw [hf] at h
    injection h with h
    have hx : x ∈ l.filter p := by rw [hf]; exact List.mem_cons_self x xs
    have hpx := (List.mem_filter.mp hx).2
    rwa [h] at hpx

/-- Account whose token fetch fails, for the claim C6 counterexample. -/
def tokenFailAccount : UserDataSyncAccount :=
  { authenticationProviderId := "github"
    session := { id := "s1", accountLabel := "alice", accountId := "a1",
                 accessToken := Except.error "token fetch failed" } }

/-- Account whose token fetch succeeds, for the claim C6 witness. -/
def tokenOkAccount : UserDataSyncAccount :=
  { authenticationProviderId := "github"
    session := { id := "s2", accountLabel := "bob", accountId := "a2",
                 accessToken := Except.ok "tok" } }

/-- Counterexample to claim C6 as stated: when the token fetch fails the
failure is logged, but the push to the token sink is not skipped — the
sink's `updateAccount` is still called, once, with an empty value (the
call at line 210 is outside the try/catch and unconditional). -/
theorem updateToken_failure_counterexample :
    (updateToken (some tokenFailAccount)).loggedErrors = ["token fetch failed"] ∧
    (updateToken (some tokenFailAccount)).sinkCalls = [Option.none] ∧
    (updateToken (some tokenFailAccount)).sinkCalls ≠ ([] : List (Option TokenPair)) := by
  refine ⟨rfl, rfl, ?_⟩
  decide

/-- Claim C6 (amended): `updateToken` never fails and always calls the
token sink exactly once: with the current account's token when the fetch
succeeds, and with an empty value — after logging the failure — when the
fetch fails, so the token itself is pushed exactly on success.  Inside
`update`, this sink call is made for the current account of the refreshed
state. -/
theorem updateToken_behavior (current : Option UserDataSyncAccount)
    (providers : List String) (sessionsOf : String → List AuthenticationSession)
    (sid : Option String) (s : WorkbenchState) :
    (updateToken current).sinkCalls.length = 1 ∧
    (∀ a t, current = some a → a.token = Except.ok t →
      (updateToken current).sinkCalls =
        [some { token := t, authenticationProviderId := a.authenticationProviderId }] ∧
      (updateToken current).loggedErrors = []) ∧
    (∀ a e, current = some a → a.token = Except.error e →
      (updateToken current).loggedErrors = [e] ∧
      (updateToken current).sinkCalls = [Option.none]) ∧
    (update providers sessionsOf sid s).2.1 =
      updateToken (currentOf (update providers sessionsOf sid s).1 sid) := by
  refine ⟨?_, ?_, ?_, ?_⟩
  · cases current with
    | none => rfl
    | some a =>
      cases ha : a.session.accessToken
      · simp [updateToken, UserDataSyncAccount.token, ha]
      · simp [updateToken, UserDataSyncAccount.token, ha]
  · rintro a t rfl ht
    simp [updateToken, ht]
  · rintro a e rfl he
    simp [updateToken, he]
  · have hall : (update providers sessionsOf sid s).1.all =
        providers.map (fun pid => (pid, getAccounts pid (sessionsOf pid) sid)) :=
      updateAccountStatus_all _ _
    have hcur : currentOf (update providers sessionsOf sid s).1 sid =
        currentOf { s with all := providers.map (fun pid => (pid, getAccounts pid (sessionsOf pid) sid)) } sid := by
      simp [currentOf, WorkbenchState.allAccounts, hall]
    rw [hcur]
    rfl

/-- Witness for claim C6's amended theorem at a concrete account with a
successful token fetch. -/
theorem updateToken_behavior_witness :
    (updateToken (some tokenOkAccount)).sinkCalls =
      [some { token := "tok", authenticationProviderId := "github" }] ∧
    (updateToken (some tokenOkAccount)).loggedErrors = [] :=
  (updateToken_behavior (some tokenOkAccount) [] (fun _ => []) none
      { all := [], accountStatus := AccountStatus.Uninitialized }).2.1
    tokenOkAccount "tok" rfl rfl

/-- Claim C7: after any completed refresh, a defined current account has
the persisted current-session id as its session id and the published status
is `Available`; with no current account the status is `Unavailable`; and
the status change event fires exactly when the stored status actually
flips. -/
theorem update_account_invariant (providers : List String)
    (sessionsOf : String → List AuthenticationSession) (sid : Option String)
    (s : WorkbenchState) :
    (∀ a, currentOf (update providers sessionsOf sid s).1 sid = some a →
      sid = some a.sessionId ∧
      (update providers sessionsOf sid s).1.accountStatus = AccountStatus.Available) ∧
    (currentOf (update providers sessionsOf sid s).1 sid = none →
      (update providers sessionsOf sid s).1.accountStatus = AccountStatus.Unavailable) ∧
    ((update providers sessionsOf sid s).2.2 ≠ [] ↔
      (update providers sessionsOf sid s).1.accountStatus ≠ s.accountStatus) := by
  have h1 : (update providers sessionsOf sid s).1 =
      (updateAccountStatus
        (currentOf { s with all := providers.map (fun pid => (pid, getAccounts pid (sessionsOf pid) sid)) } sid)
        { s with all := providers.map (fun pid => (pid, getAccounts pid (sessionsOf pid) sid)) }).1 := rfl
  have h2 : (update providers sessionsOf sid s).2.2 =
      (updateAccountStatus
        (currentOf { s with all := providers.map (fun pid => (pid, getAccounts pid (sessionsOf pid) sid)) } sid)
        { s with all := providers.map (fun pid => (pid, getAccounts pid (sessionsOf pid) sid)) }).2.2 := rfl
  have hcur : currentOf (update providers sessionsOf sid s).1 sid =
      currentOf { s with all := providers.map (fun pid => (pid, getAccounts pid (sessionsOf pid) sid)) } sid := by
    simp [currentOf, WorkbenchState.allAccounts, updateAccountStatus_all _ _, h1]
  refine ⟨?_, ?_, ?_⟩
  · intro a ha
    refine ⟨?_, ?_⟩
    · have hp : isCurrentAccount sid a = true := head?_filter_eq_some (hcur ▸ ha)
      simpa [isCurrentAccount] using hp
    · rw [h1, updateAccountStatus_status]
      rw [hcur] at ha
      rw [ha]
      rfl
  · intro ha
    rw [h1, updateAccountStatus_status]
    rw [hcur] at ha
    rw [ha]
    rfl
  · rw [h1, h2]
    exact updateAccountStatus_events _ _

/-- Witness for claim C7: with one provider, no live sessions and no
persisted session id, the refreshed status is `Unavailable`. -/
theorem update_account_invariant_witness :
    (update ["p"] (fun _ => []) none
        { all := [], accountStatus := AccountStatus.Uninitialized }).1.accountStatus =
      AccountStatus.Unavailable :=
  (update_account_invariant ["p"] (fun _ => []) none
      { all := [], accountStatus := AccountStatus.Uninitialized }).2.1 rfl

/-- The externally visible steps of the turn-on sequence, in the order the
code performs them. -/
inductive SyncStep
  | resetLocal
  | createManualSyncTask
  | previewStep
  | dialogPrompt
  | taskMerge
  | taskPull
  | taskPush
  | manualSyncFlow
  | taskStop
  | taskDispose
  | autoSyncTurnOn
  | notifyTurnedOn
deriving DecidableEq, Repr

/-- Collaborator responses consumed by `syncBeforeTurningOn`: whether the
manual task's manifest is non-null, whether local data exists, the preview
returned by the task, and the dialog choice if the first-time-sync dialog
is shown. -/
structure SyncBeforeTurningOnEnv where
  manifestNonNull : Bool
  hasLocalData : Bool
  preview : List (SyncResource × ISyncResourcePreview)
  dialogChoice : Nat

/-- `hasChanges` as computed at line 269: some resource preview has a local
or remote change. -/
def hasChangesOf (preview : List (SyncResource × ISyncResourcePreview)) : Bool :=
  preview.any (fun p =>
    p.2.resourcePreviews.any (fun r =>
      !(r.localChange == Change.None) || !(r.remoteChange == Change.None)))

/-- `isLastSyncFromCurrentMachine` as computed at line 270. -/
def isLastSyncFromCurrentMachineOf
    (preview : List (SyncResource × ISyncResourcePreview)) : Bool :=
  preview.all (fun p => p.2.isLastSyncFromCurrentMachine)

/-- Embedding of `syncBeforeTurningOn` (lines 249-295): reset local state,
create the manual task, take the preview, run the first-time-sync decision
and then the chosen action; a thrown error stops the task before the
rethrow; the task is disposed in all cases.  Returns the outcome and the
ordered step trace. -/
def syncBeforeTurningOn (env : SyncBeforeTurningOnEnv) :
    Except WorkbenchError Unit × List SyncStep :=
  let steps0 := [SyncStep.resetLocal, SyncStep.createManualSyncTask, SyncStep.previewStep]
  let o := getFirstTimeSyncAction env.manifestNonNull env.hasLocalData
    (hasChangesOf env.preview) (isLastSyncFromCurrentMachineOf env.preview) env.dialogChoice
  let promptSteps := if o.prompted then [SyncStep.dialogPrompt] else []
  match o.result with
  | Except.error e =>
    (Except.error e, steps0 ++ promptSteps ++ [SyncStep.taskStop, SyncStep.taskDispose])
  | Except.ok a =>
    let actionSteps :=
      match a with
      | FirstTimeSyncAction.merge => [SyncStep.taskMerge]
      | FirstTimeSyncAction.pull => [SyncStep.taskPull]
      | FirstTimeSyncAction.push => [SyncStep.taskPush]
      | FirstTimeSyncAction.manual => [SyncStep.manualSyncFlow]
    (Except.ok (), steps0 ++ promptSteps ++ actionSteps ++ [SyncStep.taskDispose])

/-- Embedding of `turnOn` (lines 227-243).  `picked` is the result of the
account pick (`false` when no account was picked or the picker was
dismissed) and `status` is the account status observed after the pick.
Returns the outcome together with the trace of sync steps that ran. -/
def turnOn (picked : Bool) (status : AccountStatus) (env : SyncBeforeTurningOnEnv) :
    Except WorkbenchError Unit × List SyncStep :=
  if !picked then (Except.error WorkbenchError.cancelled, [])
  else if !(status == AccountStatus.Available) then
    (Except.error (WorkbenchError.error "No account available"), [])
  else
    let sync := syncBeforeTurningOn env
    match sync.1 with
    | Except.error e => (Except.error e, sync.2)
    | Except.ok _ => (Except.ok (), sync.2 ++ [SyncStep.autoSyncTurnOn, SyncStep.notifyTurnedOn])

/-- Claim C10: when the pick completed successfully (`picked = true`) but
the account status is still not `Available`, `turnOn` fails with the
ordinary "No account available" error — which is not the cancellation
condition — and the empty step trace shows that no sync step (reset,
preview, first-time-sync decision, ...) ran. -/
theorem turnOn_no_account (status : AccountStatus) (env : SyncBeforeTurningOnEnv)
    (h : status ≠ AccountStatus.Available) :
    turnOn true status env =
      (Except.error (WorkbenchError.error "No account available"), ([] : List SyncStep)) ∧
    WorkbenchError.error "No account available" ≠ WorkbenchError.cancelled := by
  refine ⟨?_, by decide⟩
  have hb : (status == AccountStatus.Available) = false := by
    cases status <;> simp_all
  simp [turnOn, hb]

/-- Witness for claim C10 at the concrete status `Unavailable`. -/
theorem turnOn_no_account_witness :
    turnOn true AccountStatus.Unavailable
        { manifestNonNull := true, hasLocalData := true, preview := [], dialogChoice := 0 } =
      (Except.error (WorkbenchError.error "No account available"), ([] : List SyncStep)) :=
  (turnOn_no_account AccountStatus.Unavailable
      { manifestNonNull := true, hasLocalData := true, preview := [], dialogChoice := 0 }
      (by decide)).1

end UserDataSync
